import Mathlib

/-!
Verification of the delivery distance-ranking and normalization module
(`DeliveryService` in the source): defensive numeric coercion, status
normalization, record normalization from the backend shape, the Haversine
distance engine, distance formatting, and the distance-ranking pipeline.

JavaScript runtime values reaching the defensive parsers are modelled by
`JValue`; JS numbers are modelled exactly: finite values by rationals, plus
the special values NaN and the two infinities.  The trigonometric distance
engine is modelled over the real numbers.
-/

/-- A JavaScript number: a finite value (modelled exactly as a rational) or
one of the special values `NaN`, `Infinity`, `-Infinity`. -/
inductive JNum where
  | fin (q : ℚ)
  | nan
  | posInf
  | negInf
deriving DecidableEq

/-- An untyped JavaScript runtime value, as far as the defensive parsers
(`toNumber`, `normalizeStatus`) inspect it: a number, a string, a boolean,
`null`, or `undefined` (an absent field reads as `undefined`). -/
inductive JValue where
  | num (n : JNum)
  | str (s : String)
  | bool (b : Bool)
  | jnull
  | undef
deriving DecidableEq

/-- ASCII whitespace, modelling the whitespace class used by `trim` and the
regular expression `\s` in the source (restricted to the ASCII range). -/
def isWS (c : Char) : Bool :=
  c = ' ' || c = '\t' || c = '\n' || c = '\r'

/-- Numeric value of one decimal digit character. -/
def digitVal (c : Char) : ℕ :=
  c.toNat - '0'.toNat

/-- Value of a string of decimal digit characters, most significant first. -/
def natOfDigits (ds : List Char) : ℕ :=
  ds.foldl (fun n c => 10 * n + digitVal c) 0

/-- Exponent digits after an `e`/`E` and an optional sign: the exponent value,
or `none` when no digit follows (in which case JavaScript `parseFloat` stops
before the `e`, keeping only the significand). -/
def parseExpDigits (sign : ℤ) (ds : List Char) : Option ℤ :=
  let digs := ds.takeWhile Char.isDigit
  if digs.isEmpty then none else some (sign * (natOfDigits digs : ℤ))

/-- The optional exponent part of a decimal literal: `e` or `E`, an optional
sign, then at least one digit. -/
def parseExpPart : List Char → Option ℤ
  | 'e' :: '+' :: ds => parseExpDigits 1 ds
  | 'e' :: '-' :: ds => parseExpDigits (-1) ds
  | 'e' :: ds => parseExpDigits 1 ds
  | 'E' :: '+' :: ds => parseExpDigits 1 ds
  | 'E' :: '-' :: ds => parseExpDigits (-1) ds
  | 'E' :: ds => parseExpDigits 1 ds
  | _ => none

/-- The unsigned decimal significand of a JavaScript number literal:
`digits`, `digits.digits?`, or `.digits`.  Returns its exact rational value
and the unconsumed characters, or `none` when no significand is present. -/
def parseSignificand (cs : List Char) : Option (ℚ × List Char) :=
  let intPart := cs.takeWhile Char.isDigit
  let rest := cs.dropWhile Char.isDigit
  match rest with
  | '.' :: rest2 =>
    let fracPart := rest2.takeWhile Char.isDigit
    let rest3 := rest2.dropWhile Char.isDigit
    if intPart.isEmpty && fracPart.isEmpty then none
    else some ((natOfDigits intPart : ℚ) + (natOfDigits fracPart : ℚ) / 10 ^ fracPart.length, rest3)
  | _ =>
    if intPart.isEmpty then none
    else some ((natOfDigits intPart : ℚ), rest)

/-- Scale a parsed significand by the exponent part, if one follows. -/
def applyExpPart (q : ℚ) (rest : List Char) : ℚ :=
  match parseExpPart rest with
  | some e => q * (10 : ℚ) ^ e
  | none => q

/-- After the optional sign: the literal `Infinity`, or the longest decimal
literal available as a value, or NaN when nothing parses. -/
def parseAfterSign (sign : ℚ) (cs : List Char) : JNum :=
  if cs.take 8 = "Infinity".data then
    if 0 < sign then JNum.posInf else JNum.negInf
  else
    match parseSignificand cs with
    | some (q, rest) => JNum.fin (sign * applyExpPart q rest)
    | none => JNum.nan

/-- Model of JavaScript `Number.parseFloat`: skip leading whitespace, read an
optional sign, then `Infinity` or the longest decimal-literal value available;
yields NaN when no value can be read. -/
def jsParseFloat (s : String) : JNum :=
  match s.data.dropWhile isWS with
  | '+' :: t => parseAfterSign 1 t
  | '-' :: t => parseAfterSign (-1) t
  | t => parseAfterSign 1 t

/-- Embedding of `DeliveryService.toNumber`: a finite native number passes
through; a string is parsed with `parseFloat` and accepted when the result is
finite (neither NaN nor infinite); every other value yields the fallback.
The source declares the fallback with default value `0`; callers here always
pass it explicitly. -/
def toNumber (value : JValue) (fallback : ℚ) : ℚ :=
  match value with
  | .num (.fin q) => q
  | .str s =>
    match jsParseFloat s with
    | .fin q => q
    | _ => fallback
  | _ => fallback

/-- Map a character string to lower case, modelling `toLowerCase` on ASCII. -/
def toLowerList (cs : List Char) : List Char :=
  cs.map Char.toLower

/-- Strip leading and trailing whitespace, modelling `String.prototype.trim`. -/
def trimList (cs : List Char) : List Char :=
  ((cs.dropWhile isWS).reverse.dropWhile isWS).reverse

/-- Replace every maximal run of whitespace with one underscore, modelling
the regular-expression replacement in the source. -/
def collapseWS : List Char → List Char
  | [] => []
  | [c] => if isWS c then ['_'] else [c]
  | c1 :: c2 :: rest =>
    if isWS c1 then
      if isWS c2 then collapseWS (c2 :: rest)
      else '_' :: collapseWS (c2 :: rest)
    else c1 :: collapseWS (c2 :: rest)

/-- The five canonical delivery statuses. -/
def canonicalStatuses : List String :=
  ["Pending", "On Way", "Delivered", "No Answer", "Cancelled"]

/-- Embedding of `DeliveryService.normalizeStatus`: for a string, trim it,
lower-case it, collapse internal whitespace runs to a single underscore, then
map the known synonym sets; then check the original string against the exact
canonical labels; everything unmatched, and every non-string value, yields
`Pending`. -/
def normalizeStatus (value : JValue) : String :=
  match value with
  | .str s =>
    let normalized := String.mk (collapseWS (toLowerList (trimList s.data)))
    if normalized ∈ ["pending", "not_started"] then "Pending"
    else if normalized ∈ ["on_way", "in_progress", "inprogress", "onway", "on way"] then "On Way"
    else if normalized ∈ ["delivered", "completed", "complete"] then "Delivered"
    else if normalized ∈ ["no_answer", "noanswer"] then "No Answer"
    else if normalized ∈ ["cancelled", "canceled"] then "Cancelled"
    else if s = "Pending" ∨ s = "On Way" ∨ s = "Delivered" ∨ s = "No Answer" ∨ s = "Cancelled"
      then s
    else "Pending"
  | _ => "Pending"

/-- Model of JavaScript `Math.round`: round to the nearest integer, rounding
ties toward positive infinity. -/
def jsRound {α : Type} [LinearOrderedField α] [FloorRing α] (x : α) : ℤ :=
  ⌊x + 1 / 2⌋

/-- Embedding of `DeliveryService.formatDistance`: below one kilometre the
distance is rendered as rounded metres with suffix `m`; otherwise it is
rendered with exactly one decimal digit (the semantics of `toFixed 1` on the
values of this branch, which are at least 1: the nearest multiple of one
tenth, ties away from the branch minimum toward positive infinity) with
suffix `km`.  Generic over the ordered field so that the same definition is
evaluated on rationals and used on reals by the ranking pipeline. -/
def formatDistance {α : Type} [LinearOrderedField α] [FloorRing α] (distance : α) : String :=
  if distance < 1 then
    toString (jsRound (distance * 1000)) ++ "m"
  else
    toString (jsRound (distance * 10) / 10) ++ "." ++ toString (jsRound (distance * 10) % 10)
      ++ "km"

/-- Written from the spec text of the formatting contract (§4.2): below 1 km,
round to the nearest metre and render as metres with suffix `m`; otherwise
render with exactly one decimal place and suffix `km` (period decimal
separator, plain digits). -/
def formatDistanceSpec {α : Type} [LinearOrderedField α] [FloorRing α] (km : α) : String :=
  if km < 1 then
    toString (round (km * 1000)) ++ "m"
  else
    toString (round (km * 10) / 10) ++ "." ++ toString (round (km * 10) % 10) ++ "km"

/-- The denormalized link summary carried on a delivery (`LinkedRecordSummary`
in the source); the opaque `raw` payload is not modelled. -/
structure LinkedRecordSummary where
  id : String
  title : Option String
  name : Option String
deriving DecidableEq

/-- The canonical post-normalization delivery record (the `Delivery` interface
in the source).  Coordinates are finite by construction (`ℚ`); `status` and
`priority` are the strings the source stores in those fields. -/
structure Delivery where
  _id : String
  externalId : Option String
  customerId : Option String
  driverId : Option String
  productId : Option String
  customerName : String
  customerPhone : String
  customerAddress : String
  latitude : ℚ
  longitude : ℚ
  status : String
  priority : String
  deliveryTime : Option String
  estimatedDeliveryTime : Option String
  notes : Option String
  orderValue : Option ℚ
  createdAt : String
  updatedAt : String
  driver : Option LinkedRecordSummary
  product : Option LinkedRecordSummary
  customerRecord : Option LinkedRecordSummary
  customerCity : Option String
  customerCountry : Option String
deriving DecidableEq

/-- A raw backend record as `mapFromConvex` receives it
(`ConvexDeliveryRecord = Partial Delivery` plus the Convex system fields).
The fields that the source parses defensively (`latitude`, `longitude`,
`status`, `orderValue`) are modelled as untyped runtime values; an absent
field is `Option.none` (respectively `JValue.undef`). -/
structure ConvexDeliveryRecord where
  _id : Option String
  _creationTime : Option ℚ
  id : Option String
  externalId : Option String
  customerId : Option String
  driverId : Option String
  productId : Option String
  customerName : Option String
  customerPhone : Option String
  customerAddress : Option String
  latitude : JValue
  longitude : JValue
  status : JValue
  priority : Option String
  deliveryTime : Option String
  estimatedDeliveryTime : Option String
  notes : Option String
  orderValue : JValue
  createdAt : Option String
  updatedAt : Option String
  driver : Option LinkedRecordSummary
  product : Option LinkedRecordSummary
  customerRecord : Option LinkedRecordSummary
  customerCity : Option String
  customerCountry : Option String
deriving DecidableEq

/-- JavaScript truthiness on an optional string field, as used by the
conditional expressions `record.x ? String(record.x) : undefined` in
`mapFromConvex`: the empty string is falsy. -/
def jsTruthyStr (o : Option String) : Option String :=
  match o with
  | some s => if s = "" then none else some s
  | none => none

/-- Embedding of `DeliveryService.mapFromConvex`.  The ambient clock and the
epoch-to-ISO rendering of `Date` are not part of this module's logic and are
passed in: `nowIso` stands for `new Date().toISOString()` and `isoOfEpoch`
for `t => new Date(t).toISOString()`.  Field by field as in the source:
identity via truthiness, `createdAt` from the record, else from a truthy
`_creationTime`, else the current time; `updatedAt` defaulting to
`createdAt`; contact strings defaulting to empty; coordinates through
`toNumber` with fallback `0`; `status` through `normalizeStatus`; `priority`
defaulting to `medium`; `orderValue` coerced only when present. -/
def mapFromConvex (nowIso : String) (isoOfEpoch : ℚ → String)
    (record : ConvexDeliveryRecord) : Delivery :=
  let convexId :=
    match record._id with
    | some s => if s = "" then "" else s
    | none => ""
  let createdAt :=
    match record.createdAt with
    | some s => s
    | none =>
      match record._creationTime with
      | some t => if t = 0 then nowIso else isoOfEpoch t
      | none => nowIso
  let updatedAt := record.updatedAt.getD createdAt
  { _id := convexId
    externalId := record.externalId
    customerId := jsTruthyStr record.customerId
    driverId := jsTruthyStr record.driverId
    productId := jsTruthyStr record.productId
    customerName := record.customerName.getD ""
    customerPhone := record.customerPhone.getD ""
    customerAddress := record.customerAddress.getD ""
    latitude := toNumber record.latitude 0
    longitude := toNumber record.longitude 0
    status := normalizeStatus record.status
    priority := record.priority.getD "medium"
    deliveryTime := none
    estimatedDeliveryTime := record.estimatedDeliveryTime
    notes := record.notes
    orderValue := if record.orderValue = JValue.undef then none else some (toNumber record.orderValue 0)
    createdAt := createdAt
    updatedAt := updatedAt
    driver := record.driver
    product := record.product
    customerRecord := record.customerRecord
    customerCity := record.customerCity
    customerCountry := record.customerCountry }

/-- Values that `toNumber` coerces to a finite number without using its
fallback: a finite native number, or a string whose `parseFloat` result is
finite. -/
def finiteCoercible (v : JValue) : Bool :=
  match v with
  | .num (.fin _) => true
  | .str s =>
    match jsParseFloat s with
    | .fin _ => true
    | _ => false
  | _ => false

/-- The driver's reference point (`DriverLocation` in the source), produced
by device geolocation, hence real-valued. -/
structure DriverLocation where
  latitude : ℝ
  longitude : ℝ
  accuracy : Option ℝ
  timestamp : ℝ

/-- A delivery annotated with its distance from the reference point
(`DeliveryWithDistance extends Delivery` in the source). -/
structure DeliveryWithDistance extends Delivery where
  distance : ℝ
  distanceText : String

/-- Model of JavaScript `Math.atan2 y x`. -/
noncomputable def atan2 (y x : ℝ) : ℝ :=
  if 0 < x then Real.arctan (y / x)
  else if x < 0 then
    if 0 ≤ y then Real.arctan (y / x) + Real.pi
    else Real.arctan (y / x) - Real.pi
  else
    if 0 < y then Real.pi / 2
    else if y < 0 then -(Real.pi / 2)
    else 0

/-- Embedding of `DeliveryService.toRadians`. -/
noncomputable def toRadians (degrees : ℝ) : ℝ :=
  degrees * (Real.pi / 180)

/-- Embedding of `DeliveryService.calculateDistance`: the Haversine formula
with Earth radius 6371 km, exactly as written in the source. -/
noncomputable def calculateDistance (lat1 lon1 lat2 lon2 : ℝ) : ℝ :=
  let R : ℝ := 6371
  let dLat := toRadians (lat2 - lat1)
  let dLon := toRadians (lon2 - lon1)
  let a :=
    Real.sin (dLat / 2) * Real.sin (dLat / 2) +
      Real.cos (toRadians lat1) * Real.cos (toRadians lat2) *
        Real.sin (dLon / 2) * Real.sin (dLon / 2)
  let c := 2 * atan2 (Real.sqrt a) (Real.sqrt (1 - a))
  R * c

/-- The Haversine reference definition written from the spec text (§4.2):
`R = 6371`, `dLat`/`dLon` the radian differences,
`a = sin(dLat/2)^2 + cos(radians lat1) * cos(radians lat2) * sin(dLon/2)^2`,
`c = 2 * atan2 (sqrt a) (sqrt (1-a))`, result `R * c`. -/
noncomputable def haversineSpecDistance (lat1 lon1 lat2 lon2 : ℝ) : ℝ :=
  let R : ℝ := 6371
  let dLat := (lat2 - lat1) * (Real.pi / 180)
  let dLon := (lon2 - lon1) * (Real.pi / 180)
  let a :=
    Real.sin (dLat / 2) ^ 2 +
      Real.cos (lat1 * (Real.pi / 180)) * Real.cos (lat2 * (Real.pi / 180)) *
        Real.sin (dLon / 2) ^ 2
  let c := 2 * atan2 (Real.sqrt a) (Real.sqrt (1 - a))
  R * c

/-- The annotation step of the ranking pipeline: spread the delivery and add
its distance from the driver and the formatted distance label. -/
noncomputable def annotateWithDistance (driverLocation : DriverLocation) (delivery : Delivery) :
    DeliveryWithDistance :=
  let distance :=
    calculateDistance driverLocation.latitude driverLocation.longitude
      (delivery.latitude : ℝ) (delivery.longitude : ℝ)
  { toDelivery := delivery
    distance := distance
    distanceText := formatDistance distance }

/-- The comparator of the ranking pipeline, `(a, b) => a.distance - b.distance`,
as the total Boolean order it induces on the annotated records. -/
noncomputable def distLE (a b : DeliveryWithDistance) : Bool :=
  decide (a.distance ≤ b.distance)

/-- Embedding of `DeliveryService.sortDeliveriesByDistance`: annotate every
delivery with its distance from the driver location and its label, then sort
ascending by distance.  JavaScript `Array.prototype.sort` is required to be
stable, so the sort is modelled by the stable `List.mergeSort`. -/
noncomputable def sortDeliveriesByDistance (deliveries : List Delivery)
    (driverLocation : DriverLocation) : List DeliveryWithDistance :=
  (deliveries.map (annotateWithDistance driverLocation)).mergeSort distLE

/-- A concrete delivery record used to instantiate universally quantified
theorems. -/
def sampleDelivery : Delivery :=
  { _id := "d1"
    externalId := none
    customerId := none
    driverId := none
    productId := none
    customerName := "Alice"
    customerPhone := "555-0100"
    customerAddress := "1 Main St"
    latitude := 10
    longitude := 20
    status := "Pending"
    priority := "medium"
    deliveryTime := none
    estimatedDeliveryTime := none
    notes := none
    orderValue := none
    createdAt := "2024-01-01T00:00:00.000Z"
    updatedAt := "2024-01-01T00:00:00.000Z"
    driver := none
    product := none
    customerRecord := none
    customerCity := none
    customerCountry := none }

/-- A concrete driver location used to instantiate universally quantified
theorems. -/
noncomputable def sampleLocation : DriverLocation :=
  { latitude := 0, longitude := 0, accuracy := none, timestamp := 0 }

/-- A concrete raw backend record with a missing latitude and an unparseable
longitude, used to instantiate the normalization theorems. -/
def sampleRawRecord : ConvexDeliveryRecord :=
  { _id := some "abc123"
    _creationTime := none
    id := none
    externalId := none
    customerId := none
    driverId := none
    productId := none
    customerName := some "Bob"
    customerPhone := none
    customerAddress := none
    latitude := JValue.undef
    longitude := JValue.str "abc"
    status := JValue.str "in_progress"
    priority := none
    deliveryTime := none
    estimatedDeliveryTime := none
    notes := none
    orderValue := JValue.undef
    createdAt := some "2024-01-02T00:00:00.000Z"
    updatedAt := none
    driver := none
    product := none
    customerRecord := none
    customerCity := none
    customerCountry := none }

/-! ## Theorems -/

/-- Helper: every value `normalizeStatus` returns is one of the five
canonical statuses. -/
theorem normalizeStatus_mem_canonical (v : JValue) :
    normalizeStatus v ∈ canonicalStatuses := by
  cases v with
  | str s =>
    simp only [normalizeStatus]
    split_ifs with h1 h2 h3 h4 h5 h6
    · decide
    · decide
    · decide
    · decide
    · decide
    · rcases h6 with rfl | rfl | rfl | rfl | rfl <;> decide
    · decide
  | num n => exact (by decide : "Pending" ∈ canonicalStatuses)
  | bool b => exact (by decide : "Pending" ∈ canonicalStatuses)
  | jnull => exact (by decide : "Pending" ∈ canonicalStatuses)
  | undef => exact (by decide : "Pending" ∈ canonicalStatuses)

/-- C3: `normalizeStatus` always returns one of the five canonical statuses;
the synonym sets map as specified after trimming, lower-casing and collapsing
whitespace; exact canonical labels pass through unchanged; and every other
input — unmatched strings and non-strings alike — yields `Pending` without
an error (the function is total). -/
theorem normalizeStatus_spec :
    (∀ v : JValue, normalizeStatus v ∈ canonicalStatuses) ∧
    (∀ c, c ∈ canonicalStatuses → normalizeStatus (.str c) = c) ∧
    normalizeStatus (.str "in_progress") = "On Way" ∧
    normalizeStatus (.str "onway") = "On Way" ∧
    normalizeStatus (.str "on way") = "On Way" ∧
    normalizeStatus (.str "completed") = "Delivered" ∧
    normalizeStatus (.str "complete") = "Delivered" ∧
    normalizeStatus (.str "COMPLETE") = "Delivered" ∧
    normalizeStatus (.str "not_started") = "Pending" ∧
    normalizeStatus (.str "canceled") = "Cancelled" ∧
    normalizeStatus (.str "xyz-unknown") = "Pending" ∧
    (∀ n, normalizeStatus (.num n) = "Pending") ∧
    (∀ b, normalizeStatus (.bool b) = "Pending") ∧
    normalizeStatus .jnull = "Pending" ∧
    normalizeStatus .undef = "Pending" := by
  refine ⟨normalizeStatus_mem_canonical, ?_, by decide, by decide, by decide, by decide,
    by decide, by decide, by decide, by decide, by decide, fun n => rfl, fun b => rfl, rfl, rfl⟩
  intro c hc
  simp only [canonicalStatuses, List.mem_cons, List.mem_singleton] at hc
  rcases hc with rfl | rfl | rfl | rfl | rfl | h
  · decide
  · decide
  · decide
  · decide
  · decide
  · simp at h

/-- Witness for C3 at concrete inputs: the canonical label `On Way` passes
through unchanged. -/
theorem normalizeStatus_spec_witness : normalizeStatus (.str "On Way") = "On Way" :=
  normalizeStatus_spec.2.1 "On Way" (by decide)

/-- C5: `formatDistance` agrees everywhere with the formatting contract
written from the spec (metres below 1 km, one decimal place and `km`
otherwise, period separator), and takes the spec's example values. -/
theorem formatDistance_matches_spec :
    (∀ q : ℚ, formatDistance q = formatDistanceSpec q) ∧
    formatDistance ((1 : ℚ) / 2) = "500m" ∧
    formatDistance (1 : ℚ) = "1.0km" ∧
    formatDistance ((1234 : ℚ) / 100) = "12.3km" := by
  refine ⟨?_, ?_, ?_, ?_⟩
  · intro q
    simp only [formatDistance, formatDistanceSpec, jsRound, round_eq]
  · have h1 : jsRound ((1 : ℚ) / 2 * 1000) = 500 := by
      rw [jsRound, Int.floor_eq_iff]; norm_num
    rw [formatDistance, if_pos (by norm_num : (1 : ℚ) / 2 < 1), h1]
    decide
  · have h1 : jsRound ((1 : ℚ) * 10) = 10 := by
      rw [jsRound, Int.floor_eq_iff]; norm_num
    rw [formatDistance, if_neg (by norm_num : ¬((1 : ℚ) < 1)), h1]
    decide
  · have h1 : jsRound ((1234 : ℚ) / 100 * 10) = 123 := by
      rw [jsRound, Int.floor_eq_iff]; norm_num
    rw [formatDistance, if_neg (by norm_num : ¬((1234 : ℚ) / 100 < 1)), h1]
    decide

/-- C10: at the boundary of the two formatting branches, every input in
[0.9995, 1) takes the metres branch and rounds to 1000, so the label is
`1000m` — it is never promoted to `1.0km`. -/
theorem formatDistance_boundary (q : ℚ) (h1 : 1999 / 2000 ≤ q) (h2 : q < 1) :
    formatDistance q = "1000m" := by
  rw [formatDistance, if_pos h2]
  have h3 : jsRound (q * 1000) = 1000 := by
    rw [jsRound, Int.floor_eq_iff]
    constructor
    · push_cast
      linarith
    · push_cast
      linarith
  rw [h3]
  decide

/-- Witness for C10 at the concrete boundary input 0.9995. -/
theorem formatDistance_boundary_witness : formatDistance ((1999 : ℚ) / 2000) = "1000m" :=
  formatDistance_boundary ((1999 : ℚ) / 2000) (le_refl _) (by norm_num)

/-- Helper: when a value is not coercible to a finite number, `toNumber`
returns its fallback. -/
theorem toNumber_eq_fallback (v : JValue) (fb : ℚ) (h : finiteCoercible v = false) :
    toNumber v fb = fb := by
  cases v with
  | num n =>
    cases n with
    | fin q => simp [finiteCoercible] at h
    | nan => rfl
    | posInf => rfl
    | negInf => rfl
  | str s =>
    cases hj : jsParseFloat s with
    | fin q => simp [finiteCoercible, hj] at h
    | nan => simp [toNumber, hj]
    | posInf => simp [toNumber, hj]
    | negInf => simp [toNumber, hj]
  | bool b => rfl
  | jnull => rfl
  | undef => rfl

/-- C6: `toNumber` returns a finite native number unchanged, returns the
parsed value of a string whose `parseFloat` result is finite (`"40.7"` gives
40.7), and returns the caller-supplied fallback in every other case:
non-numeric strings (`"abc"`), strings parsing to a non-finite value,
non-finite numbers, and non-number non-string values.  The result type is
`ℚ`, so the result is always a finite number. -/
theorem toNumber_spec :
    (∀ q fb : ℚ, toNumber (.num (.fin q)) fb = q) ∧
    (∀ (s : String) (q fb : ℚ), jsParseFloat s = .fin q → toNumber (.str s) fb = q) ∧
    (∀ (s : String) (fb : ℚ), jsParseFloat s = .nan → toNumber (.str s) fb = fb) ∧
    (∀ (s : String) (fb : ℚ), jsParseFloat s = .posInf → toNumber (.str s) fb = fb) ∧
    (∀ (s : String) (fb : ℚ), jsParseFloat s = .negInf → toNumber (.str s) fb = fb) ∧
    (∀ fb : ℚ, toNumber (.num .nan) fb = fb) ∧
    (∀ fb : ℚ, toNumber (.num .posInf) fb = fb) ∧
    (∀ fb : ℚ, toNumber (.num .negInf) fb = fb) ∧
    (∀ (b : Bool) (fb : ℚ), toNumber (.bool b) fb = fb) ∧
    (∀ fb : ℚ, toNumber .jnull fb = fb) ∧
    (∀ fb : ℚ, toNumber .undef fb = fb) ∧
    (∀ fb : ℚ, toNumber (.str "40.7") fb = 407 / 10) ∧
    (∀ fb : ℚ, toNumber (.str "abc") fb = fb) := by
  refine ⟨fun q fb => rfl, ?_, ?_, ?_, ?_, fun fb => rfl, fun fb => rfl, fun fb => rfl,
    fun b fb => rfl, fun fb => rfl, fun fb => rfl, ?_, ?_⟩
  · intro s q fb h
    simp [toNumber, h]
  · intro s fb h
    simp [toNumber, h]
  · intro s fb h
    simp [toNumber, h]
  · intro s fb h
    simp [toNumber, h]
  · intro fb
    have h : jsParseFloat "40.7" =
        JNum.fin (1 * (((40 : ℕ) : ℚ) + ((7 : ℕ) : ℚ) / 10 ^ (1 : ℕ))) := rfl
    rw [toNumber, h]
    norm_num
  · intro fb
    have h : jsParseFloat "abc" = JNum.nan := by decide
    rw [toNumber, h]

/-- Witness for C6: the string `"40.7"` parses to a finite value and is
coerced to it (hypothesis discharged at the concrete input). -/
theorem toNumber_spec_witness : toNumber (.str "40.7") 0 = 407 / 10 :=
  toNumber_spec.2.1 "40.7" (407 / 10) 0 (by
    have h : jsParseFloat "40.7" =
        JNum.fin (1 * (((40 : ℕ) : ℚ) + ((7 : ℕ) : ℚ) / 10 ^ (1 : ℕ))) := rfl
    rw [h]
    norm_num)

/-- C7: after normalization the coordinates are total rational values (never
NaN, never absent — the field type of the embedding is `ℚ`); whenever the raw
field is missing (`undefined`) or not coercible to a finite number, the
coordinate defaults to `0` rather than being left absent. -/
theorem mapFromConvex_coordinates (nowIso : String) (isoOfEpoch : ℚ → String)
    (r : ConvexDeliveryRecord) :
    (finiteCoercible r.latitude = false → (mapFromConvex nowIso isoOfEpoch r).latitude = 0) ∧
    (finiteCoercible r.longitude = false → (mapFromConvex nowIso isoOfEpoch r).longitude = 0) ∧
    (r.latitude = JValue.undef → (mapFromConvex nowIso isoOfEpoch r).latitude = 0) ∧
    (r.longitude = JValue.undef → (mapFromConvex nowIso isoOfEpoch r).longitude = 0) := by
  have hlat : (mapFromConvex nowIso isoOfEpoch r).latitude = toNumber r.latitude 0 := rfl
  have hlon : (mapFromConvex nowIso isoOfEpoch r).longitude = toNumber r.longitude 0 := rfl
  refine ⟨fun h => ?_, fun h => ?_, fun h => ?_, fun h => ?_⟩
  · rw [hlat]
    exact toNumber_eq_fallback _ _ h
  · rw [hlon]
    exact toNumber_eq_fallback _ _ h
  · rw [hlat, h]
    rfl
  · rw [hlon, h]
    rfl

/-- Witness for C7 at a concrete raw record whose latitude is absent and
whose longitude is the unparseable string `"abc"`: both normalize to 0. -/
theorem mapFromConvex_coordinates_witness :
    (mapFromConvex "2024-01-01T00:00:00.000Z" (fun _ => "1970-01-01T00:00:00.000Z")
        sampleRawRecord).latitude = 0 ∧
    (mapFromConvex "2024-01-01T00:00:00.000Z" (fun _ => "1970-01-01T00:00:00.000Z")
        sampleRawRecord).longitude = 0 :=
  ⟨(mapFromConvex_coordinates _ _ sampleRawRecord).2.2.1 rfl,
   (mapFromConvex_coordinates _ _ sampleRawRecord).2.1 (by decide)⟩

/-- C8: under the backend schema constraint on the raw record (its priority,
when present, is one of the four allowed literals — `priorityEnum` in the
schema, also the static type of the field), the normalized record's priority
is one of low, medium, high, urgent, and it is `medium` exactly when the raw
record carries no priority. -/
theorem mapFromConvex_priority_spec (nowIso : String) (isoOfEpoch : ℚ → String)
    (r : ConvexDeliveryRecord)
    (hp : ∀ p, r.priority = some p → p ∈ ["low", "medium", "high", "urgent"]) :
    (mapFromConvex nowIso isoOfEpoch r).priority ∈ ["low", "medium", "high", "urgent"] ∧
    (r.priority = none → (mapFromConvex nowIso isoOfEpoch r).priority = "medium") := by
  have hpr : (mapFromConvex nowIso isoOfEpoch r).priority = r.priority.getD "medium" := rfl
  constructor
  · rw [hpr]
    cases hp' : r.priority with
    | some p =>
      simpa using hp p hp'
    | none => decide
  · intro h
    rw [hpr, h]
    rfl

/-- Witness for C8 at a concrete raw record without a priority: the
normalized priority is `medium`. -/
theorem mapFromConvex_priority_witness :
    (mapFromConvex "2024-01-01T00:00:00.000Z" (fun _ => "1970-01-01T00:00:00.000Z")
        sampleRawRecord).priority = "medium" :=
  (mapFromConvex_priority_spec "2024-01-01T00:00:00.000Z"
      (fun _ => "1970-01-01T00:00:00.000Z") sampleRawRecord
      (fun p h => by simp [sampleRawRecord] at h)).2 rfl

/-- Helper: `Math.atan2` is non-negative on non-negative arguments. -/
theorem atan2_nonneg {y x : ℝ} (hy : 0 ≤ y) (hx : 0 ≤ x) : 0 ≤ atan2 y x := by
  rw [atan2]
  by_cases h1 : 0 < x
  · rw [if_pos h1]
    have m := Real.arctan_strictMono.monotone (div_nonneg hy (le_of_lt h1))
    rwa [Real.arctan_zero] at m
  · rw [if_neg h1, if_neg (not_lt.mpr hx)]
    by_cases h3 : 0 < y
    · rw [if_pos h3]
      linarith [Real.pi_pos]
    · rw [if_neg h3, if_neg (not_lt.mpr hy)]

/-- C1: `calculateDistance` computes exactly the spec's Haversine reference
definition, for every quadruple of input coordinates. -/
theorem calculateDistance_eq_spec (lat1 lon1 lat2 lon2 : ℝ) :
    calculateDistance lat1 lon1 lat2 lon2 = haversineSpecDistance lat1 lon1 lat2 lon2 := by
  simp only [calculateDistance, haversineSpecDistance, toRadians]
  ring_nf

/-- C2: `calculateDistance` is non-negative for every input quadruple, with
no precondition restricting the coordinates to valid ranges. -/
theorem calculateDistance_nonneg (lat1 lon1 lat2 lon2 : ℝ) :
    0 ≤ calculateDistance lat1 lon1 lat2 lon2 := by
  simp only [calculateDistance]
  apply mul_nonneg (by norm_num)
  apply mul_nonneg (by norm_num)
  exact atan2_nonneg (Real.sqrt_nonneg _) (Real.sqrt_nonneg _)

/-- C9: `calculateDistance` is symmetric in its two points. -/
theorem calculateDistance_symm (lat1 lon1 lat2 lon2 : ℝ) :
    calculateDistance lat1 lon1 lat2 lon2 = calculateDistance lat2 lon2 lat1 lon1 := by
  have hsin : ∀ u v : ℝ, Real.sin (toRadians (v - u) / 2) = -Real.sin (toRadians (u - v) / 2) := by
    intro u v
    have h : toRadians (v - u) / 2 = -(toRadians (u - v) / 2) := by
      simp only [toRadians]
      ring
    rw [h, Real.sin_neg]
  have ha : Real.sin (toRadians (lat2 - lat1) / 2) * Real.sin (toRadians (lat2 - lat1) / 2) +
      Real.cos (toRadians lat1) * Real.cos (toRadians lat2) *
        Real.sin (toRadians (lon2 - lon1) / 2) * Real.sin (toRadians (lon2 - lon1) / 2) =
      Real.sin (toRadians (lat1 - lat2) / 2) * Real.sin (toRadians (lat1 - lat2) / 2) +
      Real.cos (toRadians lat2) * Real.cos (toRadians lat1) *
        Real.sin (toRadians (lon1 - lon2) / 2) * Real.sin (toRadians (lon1 - lon2) / 2) := by
    rw [hsin lat1 lat2, hsin lon1 lon2]
    ring
  simp only [calculateDistance]
  rw [ha]

/-- Helper: the distance comparator is transitive. -/
theorem distLE_trans (a b c : DeliveryWithDistance) :
    distLE a b → distLE b c → distLE a c := by
  intro hab hbc
  simp only [distLE, decide_eq_true_eq] at hab hbc ⊢
  exact le_trans hab hbc

/-- Helper: the distance comparator is total. -/
theorem distLE_total (a b : DeliveryWithDistance) : distLE a b || distLE b a := by
  simp only [distLE, Bool.or_eq_true, decide_eq_true_eq]
  exact le_total _ _

/-- C4: the ranking pipeline annotates each input record with its Haversine
distance from the reference point and its formatted label; the output is
exactly the input records, annotated, in permuted order (nothing is filtered
or dropped, and the empty input yields the empty output); the output is
sorted ascending by distance; and the sort is stable: any two annotated
records at equal distance keep their relative input order. -/
theorem sortDeliveriesByDistance_spec (deliveries : List Delivery) (loc : DriverLocation) :
    List.Perm ((sortDeliveriesByDistance deliveries loc).map DeliveryWithDistance.toDelivery)
      deliveries ∧
    (∀ x ∈ sortDeliveriesByDistance deliveries loc,
      x.distance = calculateDistance loc.latitude loc.longitude (x.latitude : ℝ)
        (x.longitude : ℝ) ∧
      x.distanceText = formatDistance x.distance) ∧
    List.Pairwise (fun a b : DeliveryWithDistance => a.distance ≤ b.distance)
      (sortDeliveriesByDistance deliveries loc) ∧
    (∀ a b : DeliveryWithDistance, a.distance = b.distance →
      List.Sublist [a, b] (deliveries.map (annotateWithDistance loc)) →
      List.Sublist [a, b] (sortDeliveriesByDistance deliveries loc)) ∧
    (deliveries = [] → sortDeliveriesByDistance deliveries loc = []) := by
  refine ⟨?_, ?_, ?_, ?_, ?_⟩
  · have hperm :=
      (List.mergeSort_perm (deliveries.map (annotateWithDistance loc)) distLE).map
        DeliveryWithDistance.toDelivery
    have hid : DeliveryWithDistance.toDelivery ∘ annotateWithDistance loc = id :=
      funext fun d => rfl
    rw [List.map_map, hid, List.map_id] at hperm
    exact hperm
  · intro x hx
    have hx' : x ∈ deliveries.map (annotateWithDistance loc) := List.mem_mergeSort.mp hx
    obtain ⟨d, _, rfl⟩ := List.mem_map.mp hx'
    exact ⟨rfl, rfl⟩
  · have hp := List.sorted_mergeSort distLE_trans distLE_total
      (deliveries.map (annotateWithDistance loc))
    exact hp.imp fun h => of_decide_eq_true h
  · intro a b hd hsub
    exact List.pair_sublist_mergeSort distLE_trans distLE_total
      (decide_eq_true (le_of_eq hd)) hsub
  · intro h
    subst h
    simp [sortDeliveriesByDistance, List.mergeSort]

/-- Witness for C4: the empty input yields the empty output, and a pair of
identical records (hence at equal distance) keeps its relative order. -/
theorem sortDeliveriesByDistance_spec_witness :
    sortDeliveriesByDistance [] sampleLocation = [] ∧
    List.Sublist
      [annotateWithDistance sampleLocation sampleDelivery,
        annotateWithDistance sampleLocation sampleDelivery]
      (sortDeliveriesByDistance [sampleDelivery, sampleDelivery] sampleLocation) :=
  ⟨(sortDeliveriesByDistance_spec [] sampleLocation).2.2.2.2 rfl,
    (sortDeliveriesByDistance_spec [sampleDelivery, sampleDelivery] sampleLocation).2.2.2.1
      _ _ rfl (List.Sublist.refl _)⟩
